import Mathlib

/-!
Verification development for the request-validation and role-authorization
layer of a healthcare-portal web application (Express backend + React client).

The embedding covers:
* the express-validator chains declared in `src/server/middlewares/validator.js`
  together with the generic `validate` combinator;
* the access-control gate of `src/server/routes/userRoutes.js`
  (`authorizeUsersList` and the per-route allow-lists);
* the client-side appointment booking form validation
  (`validateDoctor` / `validateTime` / `validateReason` / `validateForm` /
  `handleSubmit`).

Calls into external libraries (validator.js predicates and sanitizers) and
middleware whose source is not part of the repository snapshot (`protect`,
`authorize` from `src/server/middlewares/auth.js`) are modelled explicitly;
each such definition carries a doc comment saying what it models.
-/

namespace Portal

/-! ## JavaScript string primitives -/

/-- The whitespace characters stripped by JavaScript's `String.prototype.trim`
(the ones that can occur in this application's inputs). -/
def isJsSpace (c : Char) : Bool :=
  c == ' ' || c == '\t' || c == '\n' || c == '\r' || c == '\x0b' || c == '\x0c' || c == ' '

/-- Strip leading and trailing JS whitespace from a list of characters. -/
def trimList (l : List Char) : List Char :=
  ((l.dropWhile isJsSpace).reverse.dropWhile isJsSpace).reverse

/-- JavaScript `String.prototype.trim`, also the `trim()` sanitizer of
express-validator. -/
def jsTrim (s : String) : String := String.mk (trimList s.data)

def hasLowerChar (s : String) : Bool := s.data.any Char.isLower

def hasUpperChar (s : String) : Bool := s.data.any Char.isUpper

def hasDigitChar (s : String) : Bool := s.data.any Char.isDigit

/-- Split a character list on a separator character (semantics of JS
`String.prototype.split` with a single-character separator). -/
def splitOnChar (sep : Char) : List Char → List (List Char)
  | [] => [[]]
  | c :: rest =>
    match splitOnChar sep rest with
    | [] => if c == sep then [[], [c]] else [[c]]
    | h :: t => if c == sep then [] :: h :: t else (c :: h) :: t

/-! ## Modelled validator.js predicates and sanitizers

The repository calls these through express-validator; their implementations
live in the external `validator` npm package, so they are modelled here from
that library's documented behaviour, restricted to the input shapes this
application can produce. -/

def isEmailLocalChar (c : Char) : Bool :=
  c.isAlphanum || c == '.' || c == '_' || c == '%' || c == '+' || c == '-'

def isDomainChar (c : Char) : Bool := c.isAlphanum || c == '-'

/-- Models validator.js `isEmail` (default options), simplified: a non-empty
local part of common address characters, an `@`, and a dot-separated domain
whose labels are non-empty alphanumeric-or-hyphen, ending in an alphabetic
top-level label of length at least two. -/
def isEmail (s : String) : Bool :=
  match splitOnChar '@' s.data with
  | [loc, domain] =>
    !loc.isEmpty && loc.all isEmailLocalChar &&
    (let labels := splitOnChar '.' domain
     decide (2 ≤ labels.length) &&
     labels.all (fun lb => !lb.isEmpty && lb.all isDomainChar) &&
     (match labels.getLast? with
      | some tld => decide (2 ≤ tld.length) && tld.all Char.isAlpha
      | none => false))
  | _ => false

/-- Models validator.js `normalizeEmail` (default options), simplified to its
universally applied step: lowercasing the address. -/
def normalizeEmail (s : String) : String := String.mk (s.data.map Char.toLower)

def twoDigitVal (a b : Char) : Nat := (a.toNat - 48) * 10 + (b.toNat - 48)

/-- Models validator.js `isISO8601` (default, non-strict options), restricted
to the calendar-date forms this application produces: an optional four-digit
year `YYYY`, `YYYY-MM`, or `YYYY-MM-DD` with month in 01..12 and day in
01..31. -/
def isISO8601 (s : String) : Bool :=
  match s.data with
  | y1 :: y2 :: y3 :: y4 :: rest =>
    y1.isDigit && y2.isDigit && y3.isDigit && y4.isDigit &&
    (match rest with
     | [] => true
     | '-' :: m1 :: m2 :: rest2 =>
       m1.isDigit && m2.isDigit &&
       decide (1 ≤ twoDigitVal m1 m2) && decide (twoDigitVal m1 m2 ≤ 12) &&
       (match rest2 with
        | [] => true
        | '-' :: d1 :: d2 :: [] =>
          d1.isDigit && d2.isDigit &&
          decide (1 ≤ twoDigitVal d1 d2) && decide (twoDigitVal d1 d2 ≤ 31)
        | _ => false)
     | _ => false)
  | _ => false

/-- All suffixes of `cs` obtained by consuming between 1 and `hi` leading
decimal digits (used to model bounded digit runs of the phone regex, with
backtracking). -/
def digitRunSuffixes (hi : Nat) (cs : List Char) : List (List Char) :=
  match hi, cs with
  | 0, _ => []
  | _, [] => []
  | Nat.succ h, c :: rest =>
    if c.isDigit then rest :: digitRunSuffixes h rest else []

/-- Consume an optional single character satisfying `p`: both the "consumed"
and the "not consumed" alternatives, as a regex `X?` with backtracking. -/
def optChar (p : Char → Bool) (cs : List Char) : List (List Char) :=
  match cs with
  | [] => [[]]
  | c :: rest => if p c then [rest, c :: rest] else [c :: rest]

def isPhoneSep (c : Char) : Bool := c == '-' || c == ' ' || c == '\t' || c == '.'

/-- Models validator.js `matches` with the phone regex of the registration
rules, `[+]?[(]?[0-9]{1,4}[)]?[-\s.]?[(]?[0-9]{1,4}[)]?[-\s.]?[0-9]{1,9}`
anchored at both ends, as a nondeterministic matcher. -/
def phoneMatches (s : String) : Bool :=
  let step1 := optChar (· == '+') s.data
  let step2 := step1.flatMap (optChar (· == '('))
  let step3 := step2.flatMap (digitRunSuffixes 4)
  let step4 := step3.flatMap (optChar (· == ')'))
  let step5 := step4.flatMap (optChar isPhoneSep)
  let step6 := step5.flatMap (optChar (· == '('))
  let step7 := step6.flatMap (digitRunSuffixes 4)
  let step8 := step7.flatMap (optChar (· == ')'))
  let step9 := step8.flatMap (optChar isPhoneSep)
  let step10 := step9.flatMap (digitRunSuffixes 9)
  step10.any List.isEmpty

/-! ## The express-validator embedding

A request body is an association list of field names to string values; a
missing field is `none`, which express-validator coerces to `""` for
validators.  A chain (`body('field')....`) is an ordered list of steps, each
either a validator (predicate plus failure message) or a sanitizer; an
`optional()` chain is skipped entirely when the field is absent.  Validators
do not short-circuit: every failing validator of every chain contributes one
`(path, msg)` error. -/

abbrev Body := List (String × String)

structure FieldError where
  path : String
  msg : String
  deriving DecidableEq, Repr

inductive VStep where
  | check (p : String → Bool) (msg : String)
  | sanitize (f : String → String)

structure FieldChain where
  field : String
  optionalFlag : Bool
  steps : List VStep

/-- `req.body[field]` — the first binding of the field, if any. -/
def fieldValue (body : Body) (f : String) : Option String :=
  (body.find? (fun p => p.1 == f)).map (·.2)

/-- Run the steps of one chain on the current value: a failing validator adds
an error and the chain continues; a sanitizer replaces the value for the
remaining steps. -/
def runSteps (path : String) : String → List VStep → List FieldError
  | _, [] => []
  | v, VStep.check p msg :: rest =>
    if p v then runSteps path v rest else ⟨path, msg⟩ :: runSteps path v rest
  | v, VStep.sanitize f :: rest => runSteps path (f v) rest

/-- Run one chain against a body.  An absent field is skipped when the chain
is `optional()`, and otherwise validated as the empty string (the coercion
express-validator applies to `undefined`). -/
def runChain (body : Body) (c : FieldChain) : List FieldError :=
  match fieldValue body c.field with
  | none => if c.optionalFlag then [] else runSteps c.field "" c.steps
  | some v => runSteps c.field v c.steps

/-- All errors of all chains, in declaration order (the contents of
`validationResult(req).array()`). -/
def collectErrors (chains : List FieldChain) (body : Body) : List FieldError :=
  chains.flatMap (runChain body)

structure ErrorResponse where
  status : Nat
  success : Bool
  errors : List FieldError
  deriving DecidableEq, Repr

inductive ValidateResult where
  | proceed
  | halt (resp : ErrorResponse)
  deriving DecidableEq, Repr

/-- The `validate` combinator of `src/server/middlewares/validator.js`: run
every chain, call `next()` when no errors were recorded, and otherwise answer
400 with `{ success: false, errors }`. -/
def validate (chains : List FieldChain) (body : Body) : ValidateResult :=
  let errors := collectErrors chains body
  if errors.isEmpty then ValidateResult.proceed
  else ValidateResult.halt ⟨400, false, errors⟩

/-! ## The declared rule sets (from `src/server/middlewares/validator.js`) -/

def nameChain : FieldChain :=
  ⟨"name", false,
   [VStep.sanitize jsTrim,
    VStep.check (fun v => v != "") "Name is required",
    VStep.check (fun v => decide (v.length ≤ 100)) "Name cannot exceed 100 characters"]⟩

def emailChain : FieldChain :=
  ⟨"email", false,
   [VStep.sanitize jsTrim,
    VStep.check isEmail "Please provide a valid email",
    VStep.sanitize normalizeEmail]⟩

def passwordChain : FieldChain :=
  ⟨"password", false,
   [VStep.check (fun v => decide (8 ≤ v.length)) "Password must be at least 8 characters",
    VStep.check (fun v => hasLowerChar v && hasUpperChar v && hasDigitChar v)
      "Password must contain at least one uppercase letter, one lowercase letter, and one number"]⟩

def roleChain : FieldChain :=
  ⟨"role", true,
   [VStep.check (fun v => ["patient", "doctor", "admin"].contains v) "Invalid role"]⟩

def phoneChain : FieldChain :=
  ⟨"phone", true,
   [VStep.sanitize jsTrim,
    VStep.check phoneMatches "Invalid phone number"]⟩

def registerValidation : List FieldChain :=
  [nameChain, emailChain, passwordChain, roleChain, phoneChain]

def loginEmailChain : FieldChain :=
  ⟨"email", false,
   [VStep.sanitize jsTrim,
    VStep.check isEmail "Please provide a valid email",
    VStep.sanitize normalizeEmail]⟩

def loginPasswordChain : FieldChain :=
  ⟨"password", false,
   [VStep.check (fun v => v != "") "Password is required"]⟩

def loginValidation : List FieldChain := [loginEmailChain, loginPasswordChain]

def doctorChain : FieldChain :=
  ⟨"doctor", false,
   [VStep.check (fun v => v != "") "Doctor is required"]⟩

def appointmentDateChain : FieldChain :=
  ⟨"appointmentDate", false,
   [VStep.check (fun v => v != "") "Appointment date is required",
    VStep.check isISO8601 "Invalid date format"]⟩

def appointmentTimeChain : FieldChain :=
  ⟨"appointmentTime", false,
   [VStep.check (fun v => v != "") "Appointment time is required",
    VStep.sanitize jsTrim]⟩

def reasonChain : FieldChain :=
  ⟨"reason", true,
   [VStep.sanitize jsTrim,
    VStep.check (fun v => decide (v.length ≤ 500)) "Reason cannot exceed 500 characters"]⟩

def appointmentValidation : List FieldChain :=
  [doctorChain, appointmentDateChain, appointmentTimeChain, reasonChain]

def symptomsChain : FieldChain :=
  ⟨"symptoms", false,
   [VStep.check (fun v => v != "") "Symptoms are required",
    VStep.sanitize jsTrim,
    VStep.check (fun v => decide (10 ≤ v.length))
      "Please provide at least 10 characters describing your symptoms",
    VStep.check (fun v => decide (v.length ≤ 2000))
      "Symptoms description cannot exceed 2000 characters"]⟩

def symptomValidation : List FieldChain := [symptomsChain]

/-! ## The access-control gate (from `src/server/routes/userRoutes.js`)

The authentication middleware `protect` and the allow-list middleware
`authorize` live in `src/server/middlewares/auth.js`, which is not part of
the repository snapshot; they are modelled from the specification.  The
route-specific middleware `authorizeUsersList` and the route table are
translated from `userRoutes.js` itself. -/

structure Principal where
  id : String
  role : String
  deriving DecidableEq, Repr

structure Request where
  user : Option Principal
  query : List (String × String)
  reqBody : Body
  deriving DecidableEq, Repr

inductive GateResult where
  | proceed
  | unauthenticated
  | forbidden
  deriving DecidableEq, Repr

/-- `req.query[k]` — the first binding of a query parameter, if any
(multi-valued parameters are out of scope). -/
def queryParam (q : List (String × String)) (k : String) : Option String :=
  (q.find? (fun p => p.1 == k)).map (·.2)

/-- Modelled from the spec: the `protect` middleware of
`src/server/middlewares/auth.js` is not in the repository snapshot.  Per the
spec (section 4.1), if no principal is present the pipeline halts with an
Unauthenticated error (HTTP 401-equivalent); otherwise the principal is
available to downstream gates. -/
def protect (r : Request) : Except GateResult Principal :=
  match r.user with
  | none => Except.error GateResult.unauthenticated
  | some u => Except.ok u

/-- Modelled from the spec: the `authorize` middleware of
`src/server/middlewares/auth.js` is not in the repository snapshot.  Per the
spec (section 4.1), the principal's role must be a member of the route's
permitted-role set, and on failure the request is rejected with a Forbidden
error (HTTP 403-equivalent). -/
def authorize (roles : List String) (u : Principal) : GateResult :=
  if roles.contains u.role then GateResult.proceed else GateResult.forbidden

/-- `authorizeUsersList` from `src/server/routes/userRoutes.js`: allow a
patient when the request filters by `role=doctor`, otherwise require the
admin-or-doctor allow-list. -/
def authorizeUsersList (u : Principal) (query : List (String × String)) : GateResult :=
  if u.role == "patient" && queryParam query "role" == some "doctor" then
    GateResult.proceed
  else
    authorize ["admin", "doctor"] u

inductive UserRoute where
  | stats
  | trends
  | list
  | getById
  | update
  | delete
  deriving DecidableEq, Repr

/-- The per-route gate of `userRoutes.js` for an authenticated principal:
`/stats` and `/trends` have no further gate; `/` uses `authorizeUsersList`;
`/:id` GET uses `authorize('admin', 'doctor')`; PUT and DELETE use
`authorize('admin')`. -/
def routeGate : UserRoute → Principal → List (String × String) → GateResult
  | UserRoute.stats, _, _ => GateResult.proceed
  | UserRoute.trends, _, _ => GateResult.proceed
  | UserRoute.list, u, q => authorizeUsersList u q
  | UserRoute.getById, u, _ => authorize ["admin", "doctor"] u
  | UserRoute.update, u, _ => authorize ["admin"] u
  | UserRoute.delete, u, _ => authorize ["admin"] u

/-- The full gate pipeline of `userRoutes.js`: `router.use(protect)` first,
then the per-route gate; `GateResult.proceed` means the handler is invoked. -/
def userRoutesGate (route : UserRoute) (r : Request) : GateResult :=
  match protect r with
  | Except.error e => e
  | Except.ok u => routeGate route u r.query

/-! ## The client appointment-booking form (from `src/unnamed/part_000`)

Field validators return an error message, the empty string meaning "valid".
`validateDate` compares the selected date with the real-time clock
("today"), so its outcome is passed as a parameter to the form-level
functions; every other validator is translated directly. -/

structure AppointmentForm where
  doctor : String
  appointmentDate : String
  appointmentTime : String
  reason : String
  symptoms : String
  deriving DecidableEq, Repr

/-- `validateDoctor`: a doctor must be selected (for a string value,
JS `!doctor` coincides with `doctor === ''`). -/
def validateDoctor (doctor : String) : String :=
  if doctor == "" then "Doctor selection is required" else ""

/-- `validateTime`: empty input is accepted; otherwise the input is split on
`:`, the first two parts are read as numbers, and the time must fall within
business hours (9:00 to 17:00 inclusive).  A part that is not a numeral is
JS `NaN`, whose comparisons are all false, so no error is raised then. -/
def validateTime (time : String) : String :=
  if time == "" then ""
  else
    match (splitOnChar ':' time.data).map (fun p => String.toInt? (String.mk p)) with
    | some h :: some m :: _ =>
      if h * 60 + m < 540 || h * 60 + m > 1020 then
        "Time must be during business hours (9 AM - 5 PM)"
      else ""
    | _ => ""

/-- `validateReason`: the reason is mandatory and must be at least 10
characters after trimming. -/
def validateReason (reason : String) : String :=
  if reason == "" || jsTrim reason == "" then
    "Reason field must be at least 10 characters"
  else if (jsTrim reason).length < 10 then
    "Reason field must be at least 10 characters"
  else ""

/-- `validateForm`: all four field validators run and the form is valid when
every one returns the empty message.  `dateMsg` stands for the result of
`validateDate` on the form's date, which depends on the current day. -/
def validateForm (dateMsg : String) (f : AppointmentForm) : Bool :=
  validateDoctor f.doctor == "" && dateMsg == "" &&
  validateTime f.appointmentTime == "" && validateReason f.reason == ""

inductive SubmitOutcome where
  | sent (payload : AppointmentForm)
  | blocked
  deriving DecidableEq, Repr

/-- `handleSubmit`: when `validateForm` fails the handler returns without
calling `appointmentService.create`; otherwise the form data is sent. -/
def handleSubmit (dateMsg : String) (f : AppointmentForm) : SubmitOutcome :=
  if validateForm dateMsg f then SubmitOutcome.sent f else SubmitOutcome.blocked

/-! ## Helper lemmas -/

theorem length_dropWhile_le (p : Char → Bool) (l : List Char) :
    (l.dropWhile p).length ≤ l.length := by
  induction l with
  | nil => simp
  | cons a t ih =>
    by_cases h : p a
    · simp only [List.dropWhile, h, List.length_cons]
      omega
    · simp [List.dropWhile, h]

theorem jsTrim_length_le (s : String) : (jsTrim s).length ≤ s.length := by
  show (trimList s.data).length ≤ s.data.length
  unfold trimList
  calc ((s.data.dropWhile isJsSpace).reverse.dropWhile isJsSpace).reverse.length
      = ((s.data.dropWhile isJsSpace).reverse.dropWhile isJsSpace).length := by
        rw [List.length_reverse]
    _ ≤ (s.data.dropWhile isJsSpace).reverse.length :=
        length_dropWhile_le isJsSpace _
    _ = (s.data.dropWhile isJsSpace).length := by rw [List.length_reverse]
    _ ≤ s.data.length := length_dropWhile_le isJsSpace _

theorem mem_runSteps_path (path v : String) (steps : List VStep) :
    ∀ e ∈ runSteps path v steps, e.path = path := by
  induction steps generalizing v with
  | nil => simp [runSteps]
  | cons s rest ih =>
    intro e he
    cases s with
    | check p msg =>
      by_cases hp : p v
      · exact ih v e (by simpa [runSteps, hp] using he)
      · rcases (by simpa [runSteps, hp] using he : e = ⟨path, msg⟩ ∨ e ∈ runSteps path v rest) with
          h | h
        · rw [h]
        · exact ih v e h
    | sanitize f =>
      exact ih (f v) e (by simpa [runSteps] using he)

/-! ## C1 — a patient may list users exactly when filtering by role=doctor -/

/-- C1: for every authenticated principal with role "patient" issuing a GET
request to the user-list route, the gate lets the request proceed if and only
if the query contains `role=doctor`; without that filter the request is
denied with Forbidden. -/
theorem patient_users_list_requires_doctor_filter :
    ∀ (u : Principal) (q : List (String × String)) (b : Body),
      u.role = "patient" →
      ((userRoutesGate UserRoute.list ⟨some u, q, b⟩ = GateResult.proceed ↔
          queryParam q "role" = some "doctor") ∧
        (queryParam q "role" ≠ some "doctor" →
          userRoutesGate UserRoute.list ⟨some u, q, b⟩ = GateResult.forbidden)) := by
  intro u q b hrole
  have hgate : userRoutesGate UserRoute.list ⟨some u, q, b⟩ = authorizeUsersList u q := rfl
  rw [hgate]
  unfold authorizeUsersList authorize
  rw [hrole]
  by_cases hq : queryParam q "role" = some "doctor"
  · simp [hq]
  · simp [hq]

/-- Witness for C1 at a concrete patient and query. -/
theorem patient_users_list_requires_doctor_filter_witness :
    userRoutesGate UserRoute.list
        ⟨some ⟨"p1", "patient"⟩, [("role", "doctor")], []⟩ = GateResult.proceed ∧
      userRoutesGate UserRoute.list ⟨some ⟨"p1", "patient"⟩, [], []⟩ = GateResult.forbidden :=
  ⟨((patient_users_list_requires_doctor_filter ⟨"p1", "patient"⟩ [("role", "doctor")] [] rfl).1).mpr
      rfl,
    (patient_users_list_requires_doctor_filter ⟨"p1", "patient"⟩ [] [] rfl).2 (by decide)⟩

/-! ## C2 — missing principal means Unauthenticated everywhere -/

/-- C2: for every request to any protected user route with no authenticated
principal attached, the gate fails with Unauthenticated and the handler is
never invoked, regardless of route, query, or body. -/
theorem no_principal_unauthenticated :
    ∀ (route : UserRoute) (q : List (String × String)) (b : Body),
      userRoutesGate route ⟨none, q, b⟩ = GateResult.unauthenticated ∧
        userRoutesGate route ⟨none, q, b⟩ ≠ GateResult.proceed := by
  intro route q b
  exact ⟨rfl, by simp [userRoutesGate, protect]⟩

/-! ## C3 — admin and doctor always pass the user-list gate -/

/-- C3: for every authenticated principal whose role is "admin" or "doctor",
a GET request to the user-list route passes the gate for every possible
query. -/
theorem admin_doctor_users_list_always_allowed :
    ∀ (u : Principal) (q : List (String × String)) (b : Body),
      u.role = "admin" ∨ u.role = "doctor" →
      userRoutesGate UserRoute.list ⟨some u, q, b⟩ = GateResult.proceed := by
  intro u q b h
  have hgate : userRoutesGate UserRoute.list ⟨some u, q, b⟩ = authorizeUsersList u q := rfl
  rw [hgate]
  unfold authorizeUsersList authorize
  rcases h with h | h <;> rw [h] <;> rfl

/-- Witness for C3 at a concrete admin and a query that does filter. -/
theorem admin_doctor_users_list_always_allowed_witness :
    userRoutesGate UserRoute.list
      ⟨some ⟨"a1", "admin"⟩, [("role", "patient")], []⟩ = GateResult.proceed :=
  admin_doctor_users_list_always_allowed ⟨"a1", "admin"⟩ [("role", "patient")] [] (Or.inl rfl)

/-! ## C4 — the validator reports every failure and only halts on failure -/

/-- C4: whenever at least one field rule of the applied rule set fails, the
`validate` combinator answers a structured object with `success = false`
whose error list contains every individual `(field, message)` failure of
every rule, and the handler is not invoked; when no rule fails the request
continues to the handler. -/
theorem validate_reports_all_failures :
    ∀ (chains : List FieldChain) (body : Body),
      (collectErrors chains body = [] → validate chains body = ValidateResult.proceed) ∧
      (collectErrors chains body ≠ [] →
        validate chains body =
            ValidateResult.halt ⟨400, false, collectErrors chains body⟩ ∧
          validate chains body ≠ ValidateResult.proceed ∧
          ∀ c ∈ chains, ∀ e ∈ runChain body c, e ∈ collectErrors chains body) := by
  intro chains body
  constructor
  · intro h
    simp [validate, h]
  · intro h
    refine ⟨by simp [validate, h], by simp [validate, h], ?_⟩
    intro c hc e he
    exact List.mem_flatMap.mpr ⟨c, hc, he⟩

/-- Witness for C4: a too-short symptoms text halts with the structured
error response. -/
theorem validate_reports_all_failures_witness :
    validate symptomValidation [("symptoms", "too short")] =
      ValidateResult.halt
        ⟨400, false, collectErrors symptomValidation [("symptoms", "too short")]⟩ :=
  ((validate_reports_all_failures symptomValidation [("symptoms", "too short")]).2
    (by decide)).1

/-! ## C5 — whitespace-only appointment time

The chain for `appointmentTime` is `notEmpty().trim()`: the emptiness check
runs on the raw value and the trim is applied only afterwards, as a
sanitizer.  A non-empty, whitespace-only time therefore passes validation,
contrary to the claim. -/

/-- C5 counterexample: the appointment body whose `appointmentTime` is the
single space `" "` — non-empty and consisting only of whitespace — passes
the whole appointment rule set, so no failure citing `appointmentTime` (or
any field) is produced. -/
theorem whitespace_time_accepted_counterexample :
    (" " : String) ≠ "" ∧ jsTrim " " = "" ∧
      validate appointmentValidation
          [("doctor", "dr-x"), ("appointmentDate", "2025-01-01"), ("appointmentTime", " ")] =
        ValidateResult.proceed :=
  ⟨by decide, by decide, by decide⟩

/-- C5 amended: the `appointmentTime` check fails exactly when the submitted
value is absent or the empty string; because the emptiness check runs before
the trim sanitizer, a non-empty whitespace-only time passes (the trimmed
value is what reaches the handler). -/
theorem appointment_time_empty_check_before_trim :
    ∀ body : Body,
      runChain body appointmentTimeChain =
        (if (fieldValue body "appointmentTime").getD "" = "" then
          [⟨"appointmentTime", "Appointment time is required"⟩]
        else []) := by
  intro body
  unfold runChain appointmentTimeChain
  cases h : fieldValue body "appointmentTime" with
  | none => simp [h, runSteps]
  | some v =>
    simp only [h, Option.getD_some]
    by_cases hv : v = ""
    · simp [hv, runSteps]
    · simp [runSteps, hv]

/-! ## C6 — appointment date must be a date; doctor format check disabled -/

/-- C6: for every appointment-creation request, `appointmentDate` must be
present (an absent date yields a failure citing `appointmentDate`) and parse
as a calendar date (the literal `"not-a-date"` fails citing
`appointmentDate`), while the `doctor` field passes its check for every
non-empty string, identifier-shaped or not, since the identifier-format rule
is disabled. -/
theorem appointment_date_required_doctor_format_disabled :
    (∀ body : Body, fieldValue body "appointmentDate" = none →
        (⟨"appointmentDate", "Appointment date is required"⟩ : FieldError) ∈
          collectErrors appointmentValidation body) ∧
      ((⟨"appointmentDate", "Invalid date format"⟩ : FieldError) ∈
        collectErrors appointmentValidation
          [("doctor", "not an identifier at all"), ("appointmentDate", "not-a-date"),
            ("appointmentTime", "10:00")]) ∧
      (∀ (body : Body) (s : String), fieldValue body "doctor" = some s → s ≠ "" →
        runChain body doctorChain = []) := by
  refine ⟨?_, by decide, ?_⟩
  · intro body h
    apply List.mem_flatMap.mpr
    refine ⟨appointmentDateChain, by simp [appointmentValidation], ?_⟩
    simp [runChain, appointmentDateChain, h, runSteps, isISO8601]
  · intro body s h hs
    simp [runChain, doctorChain, h, runSteps, hs]

/-- Witness for C6 at a concrete body missing its date and a concrete
non-identifier doctor value. -/
theorem appointment_date_required_doctor_format_disabled_witness :
    (⟨"appointmentDate", "Appointment date is required"⟩ : FieldError) ∈
        collectErrors appointmentValidation [("doctor", "dr-x")] ∧
      runChain [("doctor", "just some text, no id")] doctorChain = [] :=
  ⟨appointment_date_required_doctor_format_disabled.1 [("doctor", "dr-x")] rfl,
    appointment_date_required_doctor_format_disabled.2.2 [("doctor", "just some text, no id")]
      "just some text, no id" rfl (by decide)⟩

/-! ## C7 — password strength rule -/

/-- C7: for every registration request the password field is rejected unless
it has at least 8 characters and contains at least one lowercase letter, one
uppercase letter, and one digit; every password failure is reported in the
registration run citing the password field, and the input `"abcdefgh"` fails
citing the password field. -/
theorem password_strength_rule :
    (∀ body : Body,
        runChain body passwordChain = [] ↔
          (8 ≤ ((fieldValue body "password").getD "").length ∧
            hasLowerChar ((fieldValue body "password").getD "") = true ∧
            hasUpperChar ((fieldValue body "password").getD "") = true ∧
            hasDigitChar ((fieldValue body "password").getD "") = true)) ∧
      (∀ (body : Body) (e : FieldError), e ∈ runChain body passwordChain →
        e ∈ collectErrors registerValidation body ∧ e.path = "password") ∧
      ((⟨"password",
          "Password must contain at least one uppercase letter, one lowercase letter, and one number"⟩ :
          FieldError) ∈
        collectErrors registerValidation
          [("name", "A"), ("email", "x@y.com"), ("password", "abcdefgh")]) := by
  have key : ∀ v : String,
      runSteps "password" v passwordChain.steps = [] ↔
        (8 ≤ v.length ∧ hasLowerChar v = true ∧ hasUpperChar v = true ∧
          hasDigitChar v = true) := by
    intro v
    simp only [passwordChain, runSteps, Bool.and_eq_true]
    by_cases h1 : 8 ≤ v.length <;>
      by_cases h2 : hasLowerChar v = true <;>
        by_cases h3 : hasUpperChar v = true <;>
          by_cases h4 : hasDigitChar v = true <;>
            simp [h1, h2, h3, h4]
  refine ⟨?_, ?_, by decide⟩
  · intro body
    cases h : fieldValue body "password" with
    | none => simpa [runChain, passwordChain, h] using key ""
    | some v => simpa [runChain, passwordChain, h] using key v
  · intro body e he
    refine ⟨List.mem_flatMap.mpr ⟨passwordChain, by simp [registerValidation], he⟩, ?_⟩
    cases h : fieldValue body "password" with
    | none =>
      exact mem_runSteps_path "password" "" passwordChain.steps e
        (by simpa [runChain, passwordChain, h] using he)
    | some v =>
      exact mem_runSteps_path "password" v passwordChain.steps e
        (by simpa [runChain, passwordChain, h] using he)

/-- Witness for C7: a failing password's length error is reported citing the
password field, and a conforming password produces no error. -/
theorem password_strength_rule_witness :
    ((⟨"password", "Password must be at least 8 characters"⟩ : FieldError) ∈
        collectErrors registerValidation [("password", "short")] ∧
      (⟨"password", "Password must be at least 8 characters"⟩ : FieldError).path =
        "password") ∧
      runChain [("password", "Abcdef12")] passwordChain = [] :=
  ⟨password_strength_rule.2.1 [("password", "short")] ⟨"password",
      "Password must be at least 8 characters"⟩ (by decide),
    (password_strength_rule.1 [("password", "Abcdef12")]).mpr (by decide)⟩

/-! ## C8 — symptoms accepted exactly when trimmed length is in 10..2000 -/

/-- C8: a symptom submission is accepted exactly when the trimmed symptoms
text has between 10 and 2000 characters inclusive; every 9-character text
fails, and the 10-character text `"abcdefghij"` succeeds. -/
theorem symptoms_trimmed_length_rule :
    (∀ body : Body,
        validate symptomValidation body = ValidateResult.proceed ↔
          (10 ≤ (jsTrim ((fieldValue body "symptoms").getD "")).length ∧
            (jsTrim ((fieldValue body "symptoms").getD "")).length ≤ 2000)) ∧
      (∀ v : String, v.length = 9 →
        validate symptomValidation [("symptoms", v)] ≠ ValidateResult.proceed) ∧
      validate symptomValidation [("symptoms", "abcdefghij")] = ValidateResult.proceed := by
  have hproceed : ∀ (chains : List FieldChain) (body : Body),
      validate chains body = ValidateResult.proceed ↔ collectErrors chains body = [] := by
    intro chains body
    unfold validate
    by_cases h : collectErrors chains body = [] <;> simp [h]
  have key : ∀ v : String,
      runSteps "symptoms" v symptomsChain.steps = [] ↔
        (10 ≤ (jsTrim v).length ∧ (jsTrim v).length ≤ 2000) := by
    intro v
    by_cases h0 : v = ""
    · subst h0
      have ht : jsTrim "" = "" := by decide
      simp [symptomsChain, runSteps, ht]
    · by_cases h1 : 10 ≤ (jsTrim v).length <;>
        by_cases h2 : (jsTrim v).length ≤ 2000 <;>
          simp [symptomsChain, runSteps, h0, h1, h2]
  have main : ∀ body : Body,
      validate symptomValidation body = ValidateResult.proceed ↔
        (10 ≤ (jsTrim ((fieldValue body "symptoms").getD "")).length ∧
          (jsTrim ((fieldValue body "symptoms").getD "")).length ≤ 2000) := by
    intro body
    rw [hproceed]
    have hce : collectErrors symptomValidation body = runChain body symptomsChain := by
      simp [collectErrors, symptomValidation]
    rw [hce]
    cases h : fieldValue body "symptoms" with
    | none => simpa [runChain, symptomsChain, h] using key ""
    | some v => simpa [runChain, symptomsChain, h] using key v
  refine ⟨main, ?_, (main [("symptoms", "abcdefghij")]).mpr (by decide)⟩
  intro v hv9 hcontra
  have h10 := ((main [("symptoms", v)]).mp hcontra).1
  have hfv : fieldValue [("symptoms", v)] "symptoms" = some v := rfl
  rw [hfv, Option.getD_some] at h10
  have hle : (jsTrim v).length ≤ 9 := hv9 ▸ jsTrim_length_le v
  omega

/-- Witness for C8: the 9-character text `"abcdefghi"` is rejected. -/
theorem symptoms_trimmed_length_rule_witness :
    validate symptomValidation [("symptoms", "abcdefghi")] ≠ ValidateResult.proceed :=
  symptoms_trimmed_length_rule.2.1 "abcdefghi" (by decide)

/-! ## C9 — a concrete registration body that satisfies every rule -/

/-- C9: the registration request with password `"Abcdef12"`, email
`"x@y.com"`, name `"A"`, and both role and phone omitted satisfies every
registration rule, so validation succeeds and the request continues to the
handler. -/
theorem register_valid_example :
    validate registerValidation
        [("name", "A"), ("email", "x@y.com"), ("password", "Abcdef12")] =
      ValidateResult.proceed := by decide

/-! ## C10 — the client form requires a 10-character reason; the server
treats reason as optional with only a 500-character maximum -/

/-- C10: in the client booking form the reason field is mandatory — for every
submission whose reason is empty or has trimmed length below 10, client-side
validation fails and the appointment-creation request is never sent — while
the server rule accepts an absent reason and any reason whose trimmed length
is at most 500 characters. -/
theorem client_reason_required_stricter_than_server :
    (∀ (dateMsg : String) (f : AppointmentForm),
        f.reason = "" ∨ (jsTrim f.reason).length < 10 →
        handleSubmit dateMsg f = SubmitOutcome.blocked) ∧
      (∀ body : Body, fieldValue body "reason" = none → runChain body reasonChain = []) ∧
      (∀ r : String, (jsTrim r).length ≤ 500 → runChain [("reason", r)] reasonChain = []) := by
  refine ⟨?_, ?_, ?_⟩
  · intro dateMsg f h
    have hmsg : validateReason f.reason = "Reason field must be at least 10 characters" := by
      unfold validateReason
      rcases h with h | h
      · simp [h]
      · by_cases h0 : (f.reason == "" || jsTrim f.reason == "") = true
        · simp [h0]
        · simp [h0, h]
    have hb : (validateReason f.reason == "") = false := by
      rw [hmsg]; decide
    simp [handleSubmit, validateForm, hb]
  · intro body h
    simp [runChain, reasonChain, h]
  · intro r h
    have hfv : fieldValue [("reason", r)] "reason" = some r := rfl
    simp [runChain, reasonChain, hfv, runSteps, h]

/-- Witness for C10: the reason `"short"` blocks the client submission but
passes the server-side reason rule. -/
theorem client_reason_required_stricter_than_server_witness :
    handleSubmit "" ⟨"doc1", "2025-01-01", "10:00", "short", ""⟩ = SubmitOutcome.blocked ∧
      runChain [("reason", "short")] reasonChain = [] :=
  ⟨client_reason_required_stricter_than_server.1 "" ⟨"doc1", "2025-01-01", "10:00", "short", ""⟩
      (Or.inr (by decide)),
    client_reason_required_stricter_than_server.2.2 "short" (by decide)⟩

end Portal
